import Mathlib

/-!
Verification of the time-series normalization and aggregation pipeline of the
solar-plant analytics dashboard (src/app.py).

The embedding models, faithfully to the pandas semantics the source relies on:
  * timestamp parsing with format %d.%m.%Y-%H:%M and errors=coerce
    (load_and_process_data, line 29),
  * loading: rename of the Date-Hour(NMT) header, the KeyError branch
    (lines 26-46),
  * date-range filtering via df.loc slicing on a DatetimeIndex (lines 67-69),
  * resampling with frequencies D / W / M followed by sum (lines 120-122),
  * the hour-of-day group means (line 148),
  * generation-column discovery and the correlation default (lines 79, 158-163).
-/

/-! ### Calendar arithmetic (proleptic Gregorian, as used by pandas datetime) -/

def isLeap (y : Nat) : Bool :=
  (y % 4 == 0 && y % 100 != 0) || y % 400 == 0

def daysInMonth (y m : Nat) : Nat :=
  if m == 2 then (if isLeap y then 29 else 28)
  else if m == 4 || m == 6 || m == 9 || m == 11 then 30
  else 31

/-- Days in years 0, 1, ..., y-1 of the proleptic Gregorian calendar. -/
def daysBeforeYear (y : Nat) : Nat :=
  365 * y + (y + 3) / 4 + (y + 399) / 400 - (y + 99) / 100

/-- Days in the months 1, ..., m-1 of a year (leap flag given). -/
def daysBeforeMonth (leap : Bool) (m : Nat) : Nat :=
  let base :=
    if m ≤ 1 then 0 else if m = 2 then 31 else if m = 3 then 59 else if m = 4 then 90
    else if m = 5 then 120 else if m = 6 then 151 else if m = 7 then 181
    else if m = 8 then 212 else if m = 9 then 243 else if m = 10 then 273
    else if m = 11 then 304 else 334
  if leap && m ≥ 3 then base + 1 else base

/-- Day number of a calendar date: days since 0000-01-01 (day 0, a Saturday). -/
def dayNumber (y m d : Nat) : Nat :=
  daysBeforeYear y + daysBeforeMonth (isLeap y) m + (d - 1)

/-- A parsed timestamp at minute resolution (the format carries no seconds). -/
structure DateTime where
  year : Nat
  month : Nat
  day : Nat
  hour : Nat
  minute : Nat
deriving DecidableEq, Repr

/-- Calendar validity of a date-time, as enforced by Python datetime
(year at least 1, month 1-12, day within the month, hour 0-23, minute 0-59). -/
def validDateTime (dt : DateTime) : Bool :=
  1 ≤ dt.year && dt.year ≤ 9999 &&
  1 ≤ dt.month && dt.month ≤ 12 &&
  1 ≤ dt.day && dt.day ≤ daysInMonth dt.year dt.month &&
  dt.hour ≤ 23 && dt.minute ≤ 59

/-- Total minutes since 0000-01-01 00:00; orders timestamps chronologically. -/
def DateTime.toMinutes (dt : DateTime) : Nat :=
  (dayNumber dt.year dt.month dt.day) * 1440 + dt.hour * 60 + dt.minute

/-- Minutes since the Unix epoch 1970-01-01 00:00 (may be negative). -/
def DateTime.epochMinutes (dt : DateTime) : Int :=
  (dt.toMinutes : Int) - (dayNumber 1970 1 1 * 1440 : Nat)

/-- Whether the minute-resolution value fits the 64-bit nanosecond offset that
backs a pandas Timestamp (datetime64[ns]); outside this range pandas raises
OutOfBoundsDatetime, which errors=coerce converts to NaT. -/
def tsInBounds (dt : DateTime) : Bool :=
  -153722867 ≤ dt.epochMinutes && dt.epochMinutes ≤ 153722867

/-- The calendar-date component (dt.date in the source, the DATE column). -/
def DateTime.calendarDate (dt : DateTime) : Nat × Nat × Nat :=
  (dt.year, dt.month, dt.day)

/-! ### TimestampNormalizer: pd.to_datetime(s, format=%d.%m.%Y-%H:%M,
errors=coerce).  strptime matches each of d, m, H, M as one or two digits
(two-digit values range-checked by the matcher), Y as exactly four digits, the
literal separators in between, and the whole string; the matched fields must
then form a valid in-bounds datetime, else the result is the NaT sentinel
(modelled as none). -/

/-- Decimal digit value of a character, none if not a digit. -/
def digitVal (c : Char) : Option Nat :=
  if c.isDigit then some (c.toNat - 48) else none

/-- Consume a maximal run of digits, returning (value, run length, rest). -/
def splitDigits : List Char → Nat × Nat × List Char
  | [] => (0, 0, [])
  | c :: cs =>
    match digitVal c with
    | none => (0, 0, c :: cs)
    | some d =>
      let r := splitDigits cs
      (d * 10 ^ r.2.1 + r.1, r.2.1.succ, r.2.2)

/-- One- or two-digit numeric field of strptime: a two-digit run must lie in
[lo2, hi2], a one-digit run in [lo1, hi1] (matching the alternation in the
strptime pattern for that directive). -/
def parseField2 (lo1 hi1 lo2 hi2 : Nat) (cs : List Char) : Option (Nat × List Char) :=
  let (v, n, rest) := splitDigits cs
  if n = 2 then (if lo2 ≤ v && v ≤ hi2 then some (v, rest) else none)
  else if n = 1 then (if lo1 ≤ v && v ≤ hi1 then some (v, rest) else none)
  else none

/-- Exactly-four-digit year field. -/
def parseYear4 (cs : List Char) : Option (Nat × List Char) :=
  let (v, n, rest) := splitDigits cs
  if n = 4 then some (v, rest) else none

def parseLit (c : Char) : List Char → Option (List Char)
  | [] => none
  | x :: xs => if x = c then some xs else none

/-- Parse a character list under format %d.%m.%Y-%H:%M. -/
def parseTimestampChars (cs : List Char) : Option DateTime :=
  match parseField2 1 9 1 31 cs with
  | none => none
  | some (d, r1) =>
  match parseLit (Char.ofNat 46) r1 with
  | none => none
  | some r2 =>
  match parseField2 1 9 1 12 r2 with
  | none => none
  | some (m, r3) =>
  match parseLit (Char.ofNat 46) r3 with
  | none => none
  | some r4 =>
  match parseYear4 r4 with
  | none => none
  | some (y, r5) =>
  match parseLit (Char.ofNat 45) r5 with
  | none => none
  | some r6 =>
  match parseField2 0 9 0 23 r6 with
  | none => none
  | some (h, r7) =>
  match parseLit (Char.ofNat 58) r7 with
  | none => none
  | some r8 =>
  match parseField2 0 9 0 59 r8 with
  | none => none
  | some (mi, r9) =>
  if r9 = [] then
    let dt : DateTime := ⟨y, m, d, h, mi⟩
    if validDateTime dt && tsInBounds dt then some dt else none
  else none

/-- Parse a raw string under format %d.%m.%Y-%H:%M with errors=coerce:
none models the NaT sentinel. -/
def parseTimestamp (s : String) : Option DateTime :=
  parseTimestampChars s.toList

def dchar (d : Nat) : Char := Char.ofNat (48 + d)

/-- Render components in the exact dd.mm.YYYY-HH:MM source form. -/
def renderTimestamp (d m y h mi : Nat) : String :=
  String.mk ([dchar (d / 10), dchar (d % 10), Char.ofNat 46,
    dchar (m / 10), dchar (m % 10), Char.ofNat 46,
    dchar (y / 1000), dchar (y / 100 % 10), dchar (y / 10 % 10), dchar (y % 10),
    Char.ofNat 45,
    dchar (h / 10), dchar (h % 10), Char.ofNat 58,
    dchar (mi / 10), dchar (mi % 10)])

/-! ### SeriesLoader: load_and_process_data (lines 21-46).  A source is a set
of named columns of raw cell text; the loader renames the expected header
Date-Hour(NMT) to DATE_TIME (a no-op when absent), parses the DATE_TIME column
with errors=coerce into the chronological index, and derives the DATE and HOUR
columns.  Reading a missing DATE_TIME column raises KeyError, which the
handler turns into a reported error plus an empty table (modelled as none). -/

def Csv : Type := List (String × List String)

def renameCols (csv : Csv) : Csv :=
  csv.map (fun c => (if c.1 = "Date-Hour(NMT)" then "DATE_TIME" else c.1, c.2))

/-- The canonical table as far as the claims need it: the chronological index
(one entry per input row, NaT as none) with the derived DATE and HOUR values. -/
structure CanonicalTable where
  index : List (Option DateTime)
deriving DecidableEq, Repr

def CanonicalTable.dateCol (t : CanonicalTable) : List (Option (Nat × Nat × Nat)) :=
  t.index.map (Option.map DateTime.calendarDate)

def CanonicalTable.hourCol (t : CanonicalTable) : List (Option Nat) :=
  t.index.map (Option.map DateTime.hour)

def load_and_process_data (csv : Csv) : Option CanonicalTable :=
  match (renameCols csv).lookup "DATE_TIME" with
  | none => none
  | some cells => some ⟨cells.map parseTimestamp⟩

/-! ### ColumnClassifier (lines 79, 158-167). -/

def beginsWith : List Char → List Char → Bool
  | _, [] => true
  | [], _ :: _ => false
  | h :: hs, n :: ns => h == n && beginsWith hs ns

def hasSub : List Char → List Char → Bool
  | [], needle => needle.isEmpty
  | h :: hs, needle => beginsWith (h :: hs) needle || hasSub hs needle

/-- Python substring containment: needle in hay. -/
def strContains (hay needle : String) : Bool := hasSub hay.toList needle.toList

/-- Python str.upper (source columns are ASCII). -/
def upper (s : String) : String := String.mk (s.toList.map Char.toUpper)

/-- Line 79: candidate generation columns by keyword containment. -/
def generation_cols (cols : List String) : List String :=
  cols.filter (fun col =>
    strContains (upper col) "GENERATION" || strContains (upper col) "YIELD" ||
    strContains (upper col) "POWER" || strContains (upper col) "PRODUCTION")

/-- The spec's wording: columns whose name contains, case-insensitively, one
of the keywords.  Kept separate from the source transcription to compare. -/
def specGenerationCols (cols : List String) : List String :=
  cols.filter (fun col =>
    ["GENERATION", "YIELD", "POWER", "PRODUCTION"].any
      (fun kw => strContains (upper col) (upper kw)))

/-- Lines 161-163: index of the pre-selected correlation column. -/
def default_col_index (numeric_cols : List String) : Nat :=
  if numeric_cols.contains "Radiation" then numeric_cols.indexOf "Radiation" else 0

/-- The pre-selected correlation column (line 165-167 selectbox default). -/
def correlation_default (numeric_cols : List String) : Option String :=
  numeric_cols.get? (default_col_index numeric_cols)

/-! ### RangeFilter: df_filtered = df.loc[start_date:end_date] (lines 67-69).
start_date and end_date are pd.to_datetime of calendar dates, i.e. midnight
Timestamps.  .loc slicing on a monotonically increasing DatetimeIndex keeps
the contiguous run of rows with start <= t <= end; on a non-monotonic index a
bound that is not a unique existing key raises KeyError (none below), and
bounds that are unique existing keys slice positionally. -/

/-- A row of the filtered stage: a parsed timestamp plus the selected numeric
column's value (none models NaN). -/
structure Row where
  ts : DateTime
  value : Option ℚ
deriving DecidableEq, Repr

def rowKey (r : Row) : Nat := r.ts.toMinutes

def isMonotonicList : List Nat → Bool
  | [] => true
  | [_] => true
  | a :: b :: t => a ≤ b && isMonotonicList (b :: t)

def positionalSlice (rows : List Row) (i j : Nat) : List Row :=
  (rows.drop i).take (j + 1 - i)

def locSlice (rows : List Row) (lo hi : Nat) : Option (List Row) :=
  let keys := rows.map rowKey
  if isMonotonicList keys then
    some (rows.filter (fun r => lo ≤ rowKey r && rowKey r ≤ hi))
  else if keys.count lo == 1 && keys.count hi == 1 then
    some (positionalSlice rows (keys.indexOf lo) (keys.indexOf hi))
  else none

/-- Minutes value of midnight of a calendar date. -/
def midnight (y m d : Nat) : Nat := dayNumber y m d * 1440

/-- Lines 67-69: filter the table to the picked date range. -/
def df_filtered (rows : List Row) (s e : Nat × Nat × Nat) : Option (List Row) :=
  locSlice rows (midnight s.1 s.2.1 s.2.2) (midnight e.1 e.2.1 e.2.2)

/-! ### AggregationEngine, bucketed resampling (lines 120-122):
df_filtered[col].resample(freq).sum().  pandas bins the index values into
calendar buckets, emits one entry per bucket from the bucket of the earliest
row to the bucket of the latest row (interior empty buckets included, their
skipna sum being 0), labels daily buckets by the day, weekly (W = W-SUN)
buckets by the Sunday that ends the week, monthly (M) buckets by the last day
of the month, and sums each bucket skipping NaN values. -/

def dayOf (r : Row) : Nat := dayNumber r.ts.year r.ts.month r.ts.day

def minDay (rows : List Row) : Nat :=
  match rows.map dayOf with
  | [] => 0
  | x :: xs => xs.foldl min x

def maxDay (rows : List Row) : Nat :=
  match rows.map dayOf with
  | [] => 0
  | x :: xs => xs.foldl max x

/-- skipna sum of the selected column over the rows of one day bucket. -/
def daySum (d : Nat) (rows : List Row) : ℚ :=
  ((rows.filter (fun r => dayOf r == d)).filterMap Row.value).sum

def resample_sum_daily (rows : List Row) : List (Nat × ℚ) :=
  match rows with
  | [] => []
  | _ :: _ =>
    (List.range (maxDay rows + 1 - minDay rows)).map
      (fun i => (minDay rows + i, daySum (minDay rows + i) rows))

/-- Day number of the Sunday on or after day n (day 0 is a Saturday, so a day
is a Sunday exactly when n % 7 = 1); the W bucket label of a row on day n. -/
def sundayOf (n : Nat) : Nat := n + (8 - n % 7) % 7

def weekSum (l : Nat) (rows : List Row) : ℚ :=
  ((rows.filter (fun r => sundayOf (dayOf r) == l)).filterMap Row.value).sum

def resample_sum_weekly (rows : List Row) : List (Nat × ℚ) :=
  match rows with
  | [] => []
  | _ :: _ =>
    let a := sundayOf (minDay rows)
    (List.range ((sundayOf (maxDay rows) - a) / 7 + 1)).map
      (fun i => (a + 7 * i, weekSum (a + 7 * i) rows))

/-- Linear month index 12 * year + (month - 1). -/
def monthIdxOf (r : Row) : Nat := 12 * r.ts.year + (r.ts.month - 1)

def minMonth (rows : List Row) : Nat :=
  match rows.map monthIdxOf with
  | [] => 0
  | x :: xs => xs.foldl min x

def maxMonth (rows : List Row) : Nat :=
  match rows.map monthIdxOf with
  | [] => 0
  | x :: xs => xs.foldl max x

/-- The M bucket label: day number of the last day of the month. -/
def monthLabel (k : Nat) : Nat :=
  dayNumber (k / 12) (k % 12 + 1) (daysInMonth (k / 12) (k % 12 + 1))

/-- Day number of the first day of month k, the bucket's start. -/
def monthStart (k : Nat) : Nat := dayNumber (k / 12) (k % 12 + 1) 1

def monthSum (k : Nat) (rows : List Row) : ℚ :=
  ((rows.filter (fun r => monthIdxOf r == k)).filterMap Row.value).sum

def resample_sum_monthly (rows : List Row) : List (Nat × ℚ) :=
  match rows with
  | [] => []
  | _ :: _ =>
    (List.range (maxMonth rows + 1 - minMonth rows)).map
      (fun i => (monthLabel (minMonth rows + i), monthSum (minMonth rows + i) rows))

/-! ### AggregationEngine, hourly profile (line 148):
df_filtered.groupby(HOUR)[col].mean().  groupby emits one group per distinct
key, sorted ascending; mean skips NaN and is NaN on an all-NaN group. -/

def hourOf (r : Row) : Nat := r.ts.hour

/-- pandas mean: arithmetic mean of the non-NaN values, NaN when none. -/
def groupMean (vs : List ℚ) : Option ℚ :=
  if vs = [] then none else some (vs.sum / (vs.length : ℚ))

def hourKeys (rows : List Row) : List Nat :=
  (List.range ((rows.map hourOf).foldr max 0 + 1)).filter
    (fun h => rows.any (fun r => hourOf r == h))

def hourly_avg (rows : List Row) : List (Nat × Option ℚ) :=
  (hourKeys rows).map
    (fun h => (h, groupMean ((rows.filter (fun r => hourOf r == h)).filterMap Row.value)))

/-! ### Helper lemmas -/

theorem foldl_min_le_init (xs : List Nat) : ∀ x, xs.foldl min x ≤ x := by
  induction xs with
  | nil => intro x; simp
  | cons a t ih =>
    intro x
    calc t.foldl min (min x a) ≤ min x a := ih (min x a)
    _ ≤ x := Nat.min_le_left x a

theorem foldl_min_le_mem (xs : List Nat) : ∀ x y, y ∈ xs → xs.foldl min x ≤ y := by
  induction xs with
  | nil => intro x y hy; simp at hy
  | cons a t ih =>
    intro x y hy
    rcases List.mem_cons.mp hy with h | h
    · subst h
      calc t.foldl min (min x y) ≤ min x y := foldl_min_le_init t (min x y)
      _ ≤ y := Nat.min_le_right x y
    · exact ih (min x a) y h

theorem init_le_foldl_max (xs : List Nat) : ∀ x, x ≤ xs.foldl max x := by
  induction xs with
  | nil => intro x; simp
  | cons a t ih =>
    intro x
    calc x ≤ max x a := Nat.le_max_left x a
    _ ≤ t.foldl max (max x a) := ih (max x a)

theorem mem_le_foldl_max (xs : List Nat) : ∀ x y, y ∈ xs → y ≤ xs.foldl max x := by
  induction xs with
  | nil => intro x y hy; simp at hy
  | cons a t ih =>
    intro x y hy
    rcases List.mem_cons.mp hy with h | h
    · subst h
      calc y ≤ max x y := Nat.le_max_right x y
      _ ≤ t.foldl max (max x y) := init_le_foldl_max t (max x y)
    · exact ih (max x a) y h

theorem mem_le_foldr_max (xs : List Nat) (y : Nat) (hy : y ∈ xs) : y ≤ xs.foldr max 0 := by
  induction xs with
  | nil => simp at hy
  | cons a t ih =>
    rcases List.mem_cons.mp hy with h | h
    · subst h; exact Nat.le_max_left y (t.foldr max 0)
    · calc y ≤ t.foldr max 0 := ih h
      _ ≤ max a (t.foldr max 0) := Nat.le_max_right a (t.foldr max 0)

/-- The bounds min/max of the day numbers of a nonempty row list. -/
theorem minDay_le_dayOf (r0 : Row) (rs : List Row) (r : Row) (h : r ∈ r0 :: rs) :
    minDay (r0 :: rs) ≤ dayOf r := by
  unfold minDay
  simp only [List.map_cons]
  rcases List.mem_cons.mp h with h0 | h0
  · subst h0; exact foldl_min_le_init (rs.map dayOf) (dayOf r)
  · exact foldl_min_le_mem (rs.map dayOf) (dayOf r0) (dayOf r) (List.mem_map_of_mem dayOf h0)

theorem dayOf_le_maxDay (r0 : Row) (rs : List Row) (r : Row) (h : r ∈ r0 :: rs) :
    dayOf r ≤ maxDay (r0 :: rs) := by
  unfold maxDay
  simp only [List.map_cons]
  rcases List.mem_cons.mp h with h0 | h0
  · subst h0; exact init_le_foldl_max (rs.map dayOf) (dayOf r)
  · exact mem_le_foldl_max (rs.map dayOf) (dayOf r0) (dayOf r) (List.mem_map_of_mem dayOf h0)

theorem minMonth_le_monthIdxOf (r0 : Row) (rs : List Row) (r : Row) (h : r ∈ r0 :: rs) :
    minMonth (r0 :: rs) ≤ monthIdxOf r := by
  unfold minMonth
  simp only [List.map_cons]
  rcases List.mem_cons.mp h with h0 | h0
  · subst h0; exact foldl_min_le_init (rs.map monthIdxOf) (monthIdxOf r)
  · exact foldl_min_le_mem (rs.map monthIdxOf) (monthIdxOf r0) (monthIdxOf r)
      (List.mem_map_of_mem monthIdxOf h0)

theorem monthIdxOf_le_maxMonth (r0 : Row) (rs : List Row) (r : Row) (h : r ∈ r0 :: rs) :
    monthIdxOf r ≤ maxMonth (r0 :: rs) := by
  unfold maxMonth
  simp only [List.map_cons]
  rcases List.mem_cons.mp h with h0 | h0
  · subst h0; exact init_le_foldl_max (rs.map monthIdxOf) (monthIdxOf r)
  · exact mem_le_foldl_max (rs.map monthIdxOf) (monthIdxOf r0) (monthIdxOf r)
      (List.mem_map_of_mem monthIdxOf h0)

/-- Looking a key up in a key-indexed map of a key list. -/
theorem lookup_map_key {β : Type} (f : Nat → β) (ks : List Nat) (a : Nat) :
    (ks.map (fun k => (k, f k))).lookup a = if a ∈ ks then some (f a) else none := by
  induction ks with
  | nil => simp [List.lookup]
  | cons k t ih =>
    by_cases hk : a = k
    · subst hk; simp [List.lookup]
    · have hbeq : (a == k) = false := beq_eq_false_iff_ne.mpr hk
      simp [List.lookup, hbeq, ih, hk]

/-- skipna summation agrees with treating each missing value as zero. -/
theorem sum_filterMap_value (l : List Row) :
    (l.filterMap Row.value).sum = (l.map (fun r => r.value.getD 0)).sum := by
  induction l with
  | nil => simp
  | cons r t ih =>
    cases hv : r.value with
    | none => simp [List.filterMap_cons, hv, ih]
    | some q => simp [List.filterMap_cons, hv, ih]

theorem lookup_none_of_not_mem {β : Type} (a : String) (l : List (String × β))
    (h : a ∉ l.map Prod.fst) : l.lookup a = none := by
  induction l with
  | nil => simp [List.lookup]
  | cons p t ih =>
    simp only [List.map_cons, List.mem_cons, not_or] at h
    have hbeq : (a == p.1) = false := beq_eq_false_iff_ne.mpr h.1
    simp [List.lookup, hbeq, ih h.2]

/-! ### ColumnClassifier theorems -/

theorem generation_cols_eq_spec (cols : List String) :
    generation_cols cols = specGenerationCols cols := by
  unfold generation_cols specGenerationCols
  apply List.filter_congr
  intro col _
  simp only [List.any_cons, List.any_nil,
    show upper "GENERATION" = "GENERATION" from by decide,
    show upper "YIELD" = "YIELD" from by decide,
    show upper "POWER" = "POWER" from by decide,
    show upper "PRODUCTION" = "PRODUCTION" from by decide,
    Bool.or_false, Bool.or_assoc]

theorem correlation_default_eq (ncols : List String) :
    correlation_default ncols =
      (if "Radiation" ∈ ncols then some "Radiation" else ncols.head?) := by
  unfold correlation_default default_col_index
  by_cases hR : "Radiation" ∈ ncols
  · rw [if_pos (by simp [List.contains, List.elem_iff, hR]), if_pos hR, List.indexOf_get? hR]
  · rw [if_neg (by simp [List.contains, List.elem_iff, hR]), if_neg hR, List.get?_zero]

/-- C9: the generation-candidate set is exactly the columns whose name
contains, case-insensitively, one of GENERATION, YIELD, POWER, PRODUCTION; on
the headers SystemProduction, Radiation, Temperature it is exactly
SystemProduction; the correlation default is the column named Radiation when
it is among the numeric columns, else the first numeric column in order. -/
theorem classifier_generation_and_default (cols ncols : List String) :
    generation_cols cols = specGenerationCols cols ∧
    generation_cols ["SystemProduction", "Radiation", "Temperature"] = ["SystemProduction"] ∧
    correlation_default ncols = (if "Radiation" ∈ ncols then some "Radiation" else ncols.head?) :=
  ⟨generation_cols_eq_spec cols, by decide, correlation_default_eq ncols⟩

/-! ### SeriesLoader theorems -/

/-- C7 amended: a source whose header has neither Date-Hour(NMT) nor a column
already named DATE_TIME hits the KeyError branch: a reported schema error and
an empty table. -/
theorem load_schema_mismatch (csv : Csv)
    (h1 : "Date-Hour(NMT)" ∉ csv.map Prod.fst)
    (h2 : "DATE_TIME" ∉ csv.map Prod.fst) :
    load_and_process_data csv = none := by
  unfold load_and_process_data
  have hnone : (renameCols csv).lookup "DATE_TIME" = none := by
    apply lookup_none_of_not_mem
    unfold renameCols
    rw [List.map_map]
    intro hmem
    rcases List.mem_map.mp hmem with ⟨c, hc, hceq⟩
    simp only [Function.comp] at hceq
    by_cases hdh : c.1 = "Date-Hour(NMT)"
    · exact h1 (List.mem_map.mpr ⟨c, hc, hdh⟩)
    · rw [if_neg hdh] at hceq
      exact h2 (List.mem_map.mpr ⟨c, hc, hceq⟩)
  rw [hnone]

/-- Witness for the amended C7 theorem at a concrete header. -/
theorem load_schema_mismatch_witness :
    load_and_process_data [("Time", ["x"])] = none :=
  load_schema_mismatch [("Time", ["x"])] (by decide) (by decide)

/-- C7 counterexample: a source that lacks the expected Date-Hour(NMT) header
but already carries a DATE_TIME column loads into a nonempty table with no
reported schema error, contradicting the claim for that source. -/
theorem load_bypasses_expected_header_check :
    ("Date-Hour(NMT)" ∉ ([("DATE_TIME", ["05.06.2020-14:30"])] : Csv).map Prod.fst) ∧
    load_and_process_data [("DATE_TIME", ["05.06.2020-14:30"])] =
      some ⟨[some ⟨2020, 6, 5, 14, 30⟩]⟩ := by decide

theorem count_none_map_parse (cells : List String) :
    (cells.map parseTimestamp).count none =
      (cells.filter (fun s => parseTimestamp s == none)).length := by
  induction cells with
  | nil => simp
  | cons s t ih =>
    simp only [List.map_cons, List.count_cons, List.filter_cons]
    cases hps : parseTimestamp s with
    | none => simp [hps, ih]
    | some dt => simp [hps, ih]

/-- C3 amended: the loader keeps one index entry per input row — rows whose
timestamp fails to parse are retained with the NaT sentinel, not excluded; the
number of NaT entries equals the number of unparseable cells (derivable from
the table, though the source exposes no such count). -/
theorem load_retains_all_rows (csv : Csv) (cells : List String)
    (h : (renameCols csv).lookup "DATE_TIME" = some cells) :
    load_and_process_data csv = some ⟨cells.map parseTimestamp⟩ ∧
    (cells.map parseTimestamp).length = cells.length ∧
    (cells.map parseTimestamp).count none =
      (cells.filter (fun s => parseTimestamp s == none)).length := by
  refine ⟨?_, by simp, count_none_map_parse cells⟩
  unfold load_and_process_data
  rw [h]

/-- Witness for the amended C3 theorem at a concrete source. -/
theorem load_retains_all_rows_witness :
    load_and_process_data [("Date-Hour(NMT)", ["05.06.2020-14:30", "not-a-date"])] =
      some ⟨["05.06.2020-14:30", "not-a-date"].map parseTimestamp⟩ :=
  (load_retains_all_rows _ _ (by decide)).1

/-- C3 counterexample: a source with one unparseable timestamp loads into a
table whose index still contains that row, as the NaT sentinel — the row is
not excluded from the canonical index. -/
theorem load_keeps_unparseable_row :
    load_and_process_data [("Date-Hour(NMT)", ["05.06.2020-14:30", "not-a-date"])] =
      some ⟨[some ⟨2020, 6, 5, 14, 30⟩, none]⟩ ∧
    parseTimestamp "not-a-date" = none := by decide

/-! ### TimestampNormalizer theorems -/

theorem digitVal_dchar (d : Nat) (hd : d ≤ 9) : digitVal (dchar d) = some d := by
  interval_cases d <;> decide

theorem splitDigits_two (n : Nat) (hn : n ≤ 99) (c : Char) (hc : digitVal c = none)
    (rest : List Char) :
    splitDigits (dchar (n / 10) :: dchar (n % 10) :: c :: rest) = (n, 2, c :: rest) := by
  have h1 : digitVal (dchar (n / 10)) = some (n / 10) := digitVal_dchar _ (by omega)
  have h2 : digitVal (dchar (n % 10)) = some (n % 10) := digitVal_dchar _ (by omega)
  simp only [splitDigits, h1, h2, hc]
  simp [Prod.ext_iff]
  omega

theorem splitDigits_two_end (n : Nat) (hn : n ≤ 99) :
    splitDigits [dchar (n / 10), dchar (n % 10)] = (n, 2, []) := by
  have h1 : digitVal (dchar (n / 10)) = some (n / 10) := digitVal_dchar _ (by omega)
  have h2 : digitVal (dchar (n % 10)) = some (n % 10) := digitVal_dchar _ (by omega)
  simp only [splitDigits, h1, h2]
  simp [Prod.ext_iff]
  omega

theorem splitDigits_four (y : Nat) (hy : y ≤ 9999) (c : Char) (hc : digitVal c = none)
    (rest : List Char) :
    splitDigits (dchar (y / 1000) :: dchar (y / 100 % 10) :: dchar (y / 10 % 10) ::
      dchar (y % 10) :: c :: rest) = (y, 4, c :: rest) := by
  have h1 : digitVal (dchar (y / 1000)) = some (y / 1000) := digitVal_dchar _ (by omega)
  have h2 : digitVal (dchar (y / 100 % 10)) = some (y / 100 % 10) := digitVal_dchar _ (by omega)
  have h3 : digitVal (dchar (y / 10 % 10)) = some (y / 10 % 10) := digitVal_dchar _ (by omega)
  have h4 : digitVal (dchar (y % 10)) = some (y % 10) := digitVal_dchar _ (by omega)
  simp only [splitDigits, h1, h2, h3, h4, hc]
  simp [Prod.ext_iff]
  omega

theorem parseField2_render (lo1 hi1 lo2 hi2 n : Nat) (hn : n ≤ 99) (hlo : lo2 ≤ n)
    (hhi : n ≤ hi2) (c : Char) (hc : digitVal c = none) (rest : List Char) :
    parseField2 lo1 hi1 lo2 hi2 (dchar (n / 10) :: dchar (n % 10) :: c :: rest) =
      some (n, c :: rest) := by
  unfold parseField2
  rw [splitDigits_two n hn c hc rest]
  simp [hlo, hhi]

theorem parseField2_render_end (lo1 hi1 lo2 hi2 n : Nat) (hn : n ≤ 99) (hlo : lo2 ≤ n)
    (hhi : n ≤ hi2) :
    parseField2 lo1 hi1 lo2 hi2 [dchar (n / 10), dchar (n % 10)] = some (n, []) := by
  unfold parseField2
  rw [splitDigits_two_end n hn]
  simp [hlo, hhi]

theorem parseYear4_render (y : Nat) (hy : y ≤ 9999) (c : Char) (hc : digitVal c = none)
    (rest : List Char) :
    parseYear4 (dchar (y / 1000) :: dchar (y / 100 % 10) :: dchar (y / 10 % 10) ::
      dchar (y % 10) :: c :: rest) = some (y, c :: rest) := by
  unfold parseYear4
  rw [splitDigits_four y hy c hc rest]
  simp

theorem parseLit_self (c : Char) (xs : List Char) : parseLit c (c :: xs) = some xs := by
  simp [parseLit]

/-- C5 amended: for every dd.mm.YYYY-HH:MM string denoting a valid date-time
that also fits the 64-bit nanosecond Timestamp range, parsing produces exactly
that chronological value, whose derived calendar date and hour components are
the date and hour of the string; everything else (malformed text, calendar-
invalid or Timestamp-out-of-range values) maps to the NaT sentinel without
raising, the parser being total into an option. -/
theorem parse_render_roundtrip (d m y h mi : Nat)
    (hv : validDateTime ⟨y, m, d, h, mi⟩ = true)
    (hb : tsInBounds ⟨y, m, d, h, mi⟩ = true) :
    parseTimestamp (renderTimestamp d m y h mi) = some ⟨y, m, d, h, mi⟩ ∧
    (⟨y, m, d, h, mi⟩ : DateTime).calendarDate = (y, m, d) ∧
    (⟨y, m, d, h, mi⟩ : DateTime).hour = h := by
  refine ⟨?_, rfl, rfl⟩
  have hvv := hv
  unfold validDateTime at hvv
  simp only [Bool.and_eq_true, decide_eq_true_eq] at hvv
  obtain ⟨⟨⟨⟨⟨⟨⟨hy1, hy2⟩, hm1⟩, hm2⟩, hd1⟩, hd2⟩, hh⟩, hmi⟩ := hvv
  have hd99 : d ≤ 99 := le_trans hd2 (by unfold daysInMonth; split <;> split <;> omega)
  show parseTimestampChars (renderTimestamp d m y h mi).toList = some ⟨y, m, d, h, mi⟩
  have hlist : (renderTimestamp d m y h mi).toList =
      dchar (d / 10) :: dchar (d % 10) :: Char.ofNat 46 ::
      dchar (m / 10) :: dchar (m % 10) :: Char.ofNat 46 ::
      dchar (y / 1000) :: dchar (y / 100 % 10) :: dchar (y / 10 % 10) :: dchar (y % 10) ::
      Char.ofNat 45 ::
      dchar (h / 10) :: dchar (h % 10) :: Char.ofNat 58 ::
      dchar (mi / 10) :: dchar (mi % 10) :: [] := rfl
  rw [hlist]
  have h1 := parseField2_render 1 9 1 31 d hd99 hd1
    (le_trans hd2 (by unfold daysInMonth; split <;> split <;> omega)) (Char.ofNat 46) (by decide)
    (dchar (m / 10) :: dchar (m % 10) :: Char.ofNat 46 ::
      dchar (y / 1000) :: dchar (y / 100 % 10) :: dchar (y / 10 % 10) :: dchar (y % 10) ::
      Char.ofNat 45 :: dchar (h / 10) :: dchar (h % 10) :: Char.ofNat 58 ::
      dchar (mi / 10) :: dchar (mi % 10) :: [])
  have h2 := parseField2_render 1 9 1 12 m (by omega) hm1 hm2 (Char.ofNat 46) (by decide)
    (dchar (y / 1000) :: dchar (y / 100 % 10) :: dchar (y / 10 % 10) :: dchar (y % 10) ::
      Char.ofNat 45 :: dchar (h / 10) :: dchar (h % 10) :: Char.ofNat 58 ::
      dchar (mi / 10) :: dchar (mi % 10) :: [])
  have h3 := parseYear4_render y hy2 (Char.ofNat 45) (by decide)
    (dchar (h / 10) :: dchar (h % 10) :: Char.ofNat 58 ::
      dchar (mi / 10) :: dchar (mi % 10) :: [])
  have h4 := parseField2_render 0 9 0 23 h (by omega) (Nat.zero_le h) hh (Char.ofNat 58)
    (by decide) (dchar (mi / 10) :: dchar (mi % 10) :: [])
  have h5 := parseField2_render_end 0 9 0 59 mi (by omega) (Nat.zero_le mi) hmi
  simp only [parseTimestampChars, h1, parseLit_self, h2, h3, h4, h5]
  simp [hv, hb]

/-- Witness for the amended C5 theorem at the concrete spec example string. -/
theorem parse_render_roundtrip_witness :
    parseTimestamp (renderTimestamp 5 6 2020 14 30) = some ⟨2020, 6, 5, 14, 30⟩ ∧
    (⟨2020, 6, 5, 14, 30⟩ : DateTime).calendarDate = (2020, 6, 5) ∧
    (⟨2020, 6, 5, 14, 30⟩ : DateTime).hour = 14 :=
  parse_render_roundtrip 5 6 2020 14 30 (by decide) (by decide)

/-- C5 counterexample: 05.06.1500-14:30 is a valid date and time in the exact
dd.mm.YYYY-HH:MM form, yet parsing yields the NaT sentinel, because year 1500
lies outside the datetime64[ns] Timestamp range that errors=coerce converts to
NaT — not the corresponding chronological value the claim promises. -/
theorem parse_rejects_out_of_range_valid_date :
    validDateTime ⟨1500, 6, 5, 14, 30⟩ = true ∧
    renderTimestamp 5 6 1500 14 30 = "05.06.1500-14:30" ∧
    parseTimestamp "05.06.1500-14:30" = none := by decide

/-! ### RangeFilter theorems -/

/-- C2: the date-range filter slices with midnight Timestamps, so with
start = end = 2020-06-05 it keeps only the row at exactly 00:00 of that day
and drops the 14:30 row whose calendar date also equals 2020-06-05; the claim
(and spec) promise the whole calendar day up to 23:59:59. -/
theorem range_filter_cuts_end_day_at_midnight :
    df_filtered [⟨⟨2020, 6, 5, 0, 0⟩, some 3⟩, ⟨⟨2020, 6, 5, 14, 30⟩, some 4⟩]
        (2020, 6, 5) (2020, 6, 5) = some [⟨⟨2020, 6, 5, 0, 0⟩, some 3⟩] ∧
    (⟨⟨2020, 6, 5, 14, 30⟩, some 4⟩ : Row).ts.calendarDate = (2020, 6, 5) := by decide

/-- C10: on a canonical table whose rows are not in ascending chronological
order (two rows, June 10 before June 5), slicing with midnight bounds that are
not index keys raises (none models the KeyError), even though nonempty rows in
the requested interval exist. -/
theorem range_filter_raises_on_unsorted_index :
    df_filtered [⟨⟨2020, 6, 10, 0, 0⟩, some 1⟩, ⟨⟨2020, 6, 5, 0, 0⟩, some 2⟩]
        (2020, 6, 1) (2020, 6, 30) = none ∧
    isMonotonicList ([⟨⟨2020, 6, 10, 0, 0⟩, some 1⟩,
      (⟨⟨2020, 6, 5, 0, 0⟩, some 2⟩ : Row)].map rowKey) = false ∧
    ([⟨⟨2020, 6, 10, 0, 0⟩, some 1⟩, (⟨⟨2020, 6, 5, 0, 0⟩, some 2⟩ : Row)].filter
      (fun r => midnight 2020 6 1 ≤ rowKey r && rowKey r ≤ midnight 2020 6 30)) ≠ [] := by
  decide

/-! ### AggregationEngine theorems -/

/-- C6: daily resampling assigns to every calendar day that has rows the
skipna sum of the selected column over exactly that day's rows, which equals
the sum in which each missing value contributes zero. -/
theorem resample_daily_day_sum (rows : List Row) (d : Nat) (hd : d ∈ rows.map dayOf) :
    (resample_sum_daily rows).lookup d = some (daySum d rows) ∧
    daySum d rows = ((rows.filter (fun r => dayOf r == d)).map (fun r => r.value.getD 0)).sum := by
  refine ⟨?_, by unfold daySum; exact sum_filterMap_value _⟩
  cases rows with
  | nil => simp at hd
  | cons r0 rs =>
    obtain ⟨r, hr, hrd⟩ := List.mem_map.mp hd
    have hmin : minDay (r0 :: rs) ≤ d := hrd ▸ minDay_le_dayOf r0 rs r hr
    have hmax : d ≤ maxDay (r0 :: rs) := hrd ▸ dayOf_le_maxDay r0 rs r hr
    show ((List.range (maxDay (r0 :: rs) + 1 - minDay (r0 :: rs))).map
      (fun i => (minDay (r0 :: rs) + i, daySum (minDay (r0 :: rs) + i) (r0 :: rs)))).lookup d
        = some (daySum d (r0 :: rs))
    rw [show (fun i => (minDay (r0 :: rs) + i, daySum (minDay (r0 :: rs) + i) (r0 :: rs)))
        = (fun k => (k, daySum k (r0 :: rs))) ∘ (fun i => minDay (r0 :: rs) + i) from rfl]
    rw [← List.map_map, lookup_map_key]
    rw [if_pos]
    exact List.mem_map.mpr ⟨d - minDay (r0 :: rs), List.mem_range.mpr (by omega), by omega⟩

/-- Witness for the C6 theorem at a concrete one-row table. -/
theorem resample_daily_day_sum_witness :
    (resample_sum_daily [⟨⟨2020, 6, 5, 14, 30⟩, some 5⟩]).lookup (dayNumber 2020 6 5) =
      some (daySum (dayNumber 2020 6 5) [⟨⟨2020, 6, 5, 14, 30⟩, some 5⟩]) ∧
    daySum (dayNumber 2020 6 5) [⟨⟨2020, 6, 5, 14, 30⟩, some 5⟩] =
      (([⟨⟨2020, 6, 5, 14, 30⟩, (some 5 : Option ℚ)⟩].filter
        (fun r => dayOf r == dayNumber 2020 6 5)).map (fun r => r.value.getD 0)).sum :=
  resample_daily_day_sum [⟨⟨2020, 6, 5, 14, 30⟩, some 5⟩] (dayNumber 2020 6 5) (by decide)

/-- C1 amended: resampling emits one bucket for every bucket position between
the bucket of the earliest row and the bucket of the latest row, inclusive —
interior buckets with zero contributing rows included (their sum being 0);
only buckets outside the span of the filtered rows are absent. -/
theorem resample_emits_every_span_bucket (rows : List Row) (hne : rows ≠ []) (d i k : Nat) :
    ((d, daySum d rows) ∈ resample_sum_daily rows ↔ minDay rows ≤ d ∧ d ≤ maxDay rows) ∧
    (i ≤ (sundayOf (maxDay rows) - sundayOf (minDay rows)) / 7 →
      (sundayOf (minDay rows) + 7 * i, weekSum (sundayOf (minDay rows) + 7 * i) rows)
        ∈ resample_sum_weekly rows) ∧
    (minMonth rows ≤ k → k ≤ maxMonth rows →
      (monthLabel k, monthSum k rows) ∈ resample_sum_monthly rows) := by
  cases rows with
  | nil => exact absurd rfl hne
  | cons r0 rs =>
    have hminmax : minDay (r0 :: rs) ≤ maxDay (r0 :: rs) :=
      le_trans (minDay_le_dayOf r0 rs r0 (List.mem_cons_self r0 rs))
        (dayOf_le_maxDay r0 rs r0 (List.mem_cons_self r0 rs))
    refine ⟨⟨?_, ?_⟩, ?_, ?_⟩
    · intro hmem
      show minDay (r0 :: rs) ≤ d ∧ d ≤ maxDay (r0 :: rs)
      obtain ⟨j, hj, hpair⟩ := List.mem_map.mp hmem
      have hjlt := List.mem_range.mp hj
      have hd : minDay (r0 :: rs) + j = d := congrArg Prod.fst hpair
      omega
    · intro hbounds
      refine List.mem_map.mpr ⟨d - minDay (r0 :: rs), List.mem_range.mpr (by omega), ?_⟩
      have : minDay (r0 :: rs) + (d - minDay (r0 :: rs)) = d := by omega
      rw [this]
    · intro hi
      exact List.mem_map.mpr ⟨i, List.mem_range.mpr (by omega), rfl⟩
    · intro hk1 hk2
      refine List.mem_map.mpr ⟨k - minMonth (r0 :: rs), List.mem_range.mpr (by omega), ?_⟩
      have : minMonth (r0 :: rs) + (k - minMonth (r0 :: rs)) = k := by omega
      rw [this]

/-- Witness for the amended C1 theorem at a concrete one-row table. -/
theorem resample_emits_every_span_bucket_witness :
    (dayNumber 2020 6 5, daySum (dayNumber 2020 6 5) [⟨⟨2020, 6, 5, 14, 30⟩, some 5⟩]) ∈
      resample_sum_daily [⟨⟨2020, 6, 5, 14, 30⟩, some 5⟩] :=
  (resample_emits_every_span_bucket [⟨⟨2020, 6, 5, 14, 30⟩, some 5⟩] (by decide)
    (dayNumber 2020 6 5) 0 0).1.mpr (by decide)

/-- C1 counterexample: rows on June 1 and June 3 only; daily resampling
emits the June 2 bucket with aggregated value 0 although no row falls on
June 2 — zero-filled, not omitted. -/
theorem resample_daily_zero_fills_empty_bucket :
    (dayNumber 2020 6 2, (0 : ℚ)) ∈
      resample_sum_daily [⟨⟨2020, 6, 1, 13, 0⟩, some 5⟩, ⟨⟨2020, 6, 3, 9, 0⟩, some 7⟩] ∧
    ∀ r ∈ [⟨⟨2020, 6, 1, 13, 0⟩, some 5⟩, (⟨⟨2020, 6, 3, 9, 0⟩, some 7⟩ : Row)],
      dayOf r ≠ dayNumber 2020 6 2 := by
  constructor
  · have heval : resample_sum_daily
        [⟨⟨2020, 6, 1, 13, 0⟩, some 5⟩, ⟨⟨2020, 6, 3, 9, 0⟩, some 7⟩] =
        [(dayNumber 2020 6 1, 5), (dayNumber 2020 6 2, 0), (dayNumber 2020 6 3, 7)] := by
      simp [resample_sum_daily, minDay, maxDay, daySum, dayOf, dayNumber,
        daysBeforeYear, daysBeforeMonth, isLeap, List.range_succ, List.filter_cons,
        List.filterMap_cons]
    rw [heval]
    exact List.mem_cons_of_mem _ (List.mem_cons_self _ _)
  · decide

/-- Day-of-week residue of every weekly bucket label: day 0 of the calendar
is a Saturday, so residue 1 is Sunday. -/
theorem sunday_residue (n : Nat) : sundayOf n % 7 = 1 := by
  unfold sundayOf
  omega

/-- C4 amended: daily entries are labeled by the calendar day itself (the
bucket start); weekly entries by a Sunday that is at most 6 days after each
contributing row (the bucket end, pandas W = W-SUN, label = right edge);
monthly entries by the last day of the bucket's month (again the end): weekly
and monthly labels are bucket ends, not starts. -/
theorem resample_label_conventions (rows : List Row) (hne : rows ≠ []) :
    (∀ p ∈ resample_sum_daily rows, p.2 = daySum p.1 rows) ∧
    (∀ p ∈ resample_sum_weekly rows, p.1 % 7 = 1 ∧ p.2 = weekSum p.1 rows ∧
      ∀ r ∈ rows, sundayOf (dayOf r) = p.1 → dayOf r ≤ p.1 ∧ p.1 ≤ dayOf r + 6) ∧
    (∀ p ∈ resample_sum_monthly rows, ∃ j, minMonth rows ≤ j ∧ j ≤ maxMonth rows ∧
      p.1 = monthLabel j ∧ p.2 = monthSum j rows ∧
      p.1 = monthStart j + (daysInMonth (j / 12) (j % 12 + 1) - 1)) := by
  cases rows with
  | nil => exact absurd rfl hne
  | cons r0 rs =>
    refine ⟨?_, ?_, ?_⟩
    · intro p hp
      obtain ⟨j, _, hpair⟩ := List.mem_map.mp hp
      rw [← hpair]
    · intro p hp
      obtain ⟨j, _, hpair⟩ := List.mem_map.mp hp
      subst hpair
      refine ⟨?_, rfl, ?_⟩
      · have := sunday_residue (minDay (r0 :: rs))
        omega
      · intro r _ hsun
        have hoff : dayOf r ≤ sundayOf (dayOf r) ∧ sundayOf (dayOf r) ≤ dayOf r + 6 := by
          unfold sundayOf
          omega
        rw [hsun] at hoff
        exact hoff
    · intro p hp
      obtain ⟨j, hj, hpair⟩ := List.mem_map.mp hp
      have hjlt := List.mem_range.mp hj
      refine ⟨minMonth (r0 :: rs) + j, by omega, ?_, ?_, ?_, ?_⟩
      · have hmm : minMonth (r0 :: rs) ≤ maxMonth (r0 :: rs) :=
          le_trans (minMonth_le_monthIdxOf r0 rs r0 (List.mem_cons_self r0 rs))
            (monthIdxOf_le_maxMonth r0 rs r0 (List.mem_cons_self r0 rs))
        omega
      · rw [← hpair]
      · rw [← hpair]
      · rw [← hpair]
        show monthLabel (minMonth (r0 :: rs) + j) = _
        unfold monthLabel monthStart dayNumber
        omega

/-- Witness for the amended C4 theorem at a concrete one-row table. -/
theorem resample_label_conventions_witness :
    ∃ j, minMonth [⟨⟨2020, 6, 5, 14, 30⟩, (some 5 : Option ℚ)⟩] ≤ j ∧
      j ≤ maxMonth [⟨⟨2020, 6, 5, 14, 30⟩, (some 5 : Option ℚ)⟩] ∧
      (dayNumber 2020 6 30, (5 : ℚ)).1 = monthLabel j ∧
      (dayNumber 2020 6 30, (5 : ℚ)).2 = monthSum j [⟨⟨2020, 6, 5, 14, 30⟩, some 5⟩] ∧
      (dayNumber 2020 6 30, (5 : ℚ)).1 = monthStart j + (daysInMonth (j / 12) (j % 12 + 1) - 1) := by
  have hmem : (dayNumber 2020 6 30, (5 : ℚ)) ∈
      resample_sum_monthly [⟨⟨2020, 6, 5, 14, 30⟩, some 5⟩] := by
    simp [resample_sum_monthly, minMonth, maxMonth, monthSum, monthIdxOf, monthLabel,
      dayNumber, daysBeforeYear, daysBeforeMonth, isLeap, daysInMonth, List.range_succ,
      List.filter_cons, List.filterMap_cons]
  exact (resample_label_conventions [⟨⟨2020, 6, 5, 14, 30⟩, some 5⟩] (by decide)).2.2 _ hmem

/-- C4 counterexample: a single row on 2020-06-05 resampled monthly is
labeled 2020-06-30 — the last day of its month, not the month start
2020-06-01 promised by the claim. -/
theorem monthly_bucket_labeled_month_end :
    resample_sum_monthly [⟨⟨2020, 6, 5, 14, 30⟩, some 5⟩] = [(dayNumber 2020 6 30, 5)] ∧
    dayNumber 2020 6 30 ≠ dayNumber 2020 6 1 := by
  constructor
  · simp [resample_sum_monthly, minMonth, maxMonth, monthSum, monthIdxOf, monthLabel,
      dayNumber, daysBeforeYear, daysBeforeMonth, isLeap, daysInMonth, List.range_succ,
      List.filter_cons, List.filterMap_cons]
  · decide

theorem filterMap_value_length (l : List Row) (h : ∀ r ∈ l, r.value ≠ none) :
    (l.filterMap Row.value).length = l.length := by
  induction l with
  | nil => simp
  | cons r t ih =>
    cases hv : r.value with
    | none => exact absurd hv (h r (List.mem_cons_self r t))
    | some q =>
      simp only [List.filterMap_cons, hv, List.length_cons]
      rw [ih (fun x hx => h x (List.mem_cons_of_mem r hx))]

theorem hour_mem_keys (rows : List Row) (h : Nat) :
    h ∈ hourKeys rows ↔ rows.filter (fun r => hourOf r == h) ≠ [] := by
  unfold hourKeys
  rw [List.mem_filter, List.mem_range]
  constructor
  · rintro ⟨-, hany⟩
    obtain ⟨r, hr, hrh⟩ := List.any_eq_true.mp hany
    intro hnil
    have : r ∈ rows.filter (fun r => hourOf r == h) := List.mem_filter.mpr ⟨hr, hrh⟩
    rw [hnil] at this
    simp at this
  · intro hne
    obtain ⟨r, hr⟩ := List.exists_mem_of_ne_nil _ hne
    have hmem := List.mem_filter.mp hr
    refine ⟨?_, List.any_eq_true.mpr ⟨r, hmem.1, hmem.2⟩⟩
    have : hourOf r = h := by simpa using hmem.2
    have hle : hourOf r ≤ (rows.map hourOf).foldr max 0 :=
      mem_le_foldr_max (rows.map hourOf) (hourOf r) (List.mem_map_of_mem hourOf hmem.1)
    omega

/-- C8: the hourly profile maps each hour h to the pandas mean of the selected
column over exactly the rows whose hour is h, and contains no entry for an
hour with zero rows; when no value is missing, the entry is the arithmetic
mean — the sum of the values of the hour-h rows over their count. -/
theorem hourly_profile_group_means (rows : List Row) (h : Nat) :
    ((hourly_avg rows).lookup h =
      if rows.filter (fun r => hourOf r == h) = [] then none
      else some (groupMean ((rows.filter (fun r => hourOf r == h)).filterMap Row.value))) ∧
    ((∀ r ∈ rows, hourOf r = h → r.value ≠ none) →
      rows.filter (fun r => hourOf r == h) ≠ [] →
      (hourly_avg rows).lookup h =
        some (some (((rows.filter (fun r => hourOf r == h)).map (fun r => r.value.getD 0)).sum /
          ((rows.filter (fun r => hourOf r == h)).length : ℚ)))) := by
  have hmain : (hourly_avg rows).lookup h =
      if rows.filter (fun r => hourOf r == h) = [] then none
      else some (groupMean ((rows.filter (fun r => hourOf r == h)).filterMap Row.value)) := by
    unfold hourly_avg
    rw [lookup_map_key]
    by_cases hnil : rows.filter (fun r => hourOf r == h) = []
    · rw [if_neg (fun hmem => (hour_mem_keys rows h).mp hmem hnil), if_pos hnil]
    · rw [if_pos ((hour_mem_keys rows h).mpr hnil), if_neg hnil]
  refine ⟨hmain, fun hval hne => ?_⟩
  rw [hmain, if_neg hne]
  have hvals : ∀ r ∈ rows.filter (fun r => hourOf r == h), r.value ≠ none := by
    intro r hr
    have hmem := List.mem_filter.mp hr
    exact hval r hmem.1 (by simpa using hmem.2)
  have hlen := filterMap_value_length _ hvals
  have hsum := sum_filterMap_value (rows.filter (fun r => hourOf r == h))
  unfold groupMean
  rw [if_neg ?hc, hsum, hlen]
  case hc =>
    intro hnil2
    have : (0 : Nat) = (rows.filter (fun r => hourOf r == h)).length := by
      rw [← hlen, hnil2]
      rfl
    exact hne (List.eq_nil_of_length_eq_zero this.symm)

/-- Witness for the C8 theorem: hour 14 over two rows with values 1 and 3
averages to 2. -/
theorem hourly_profile_group_means_witness :
    (hourly_avg [⟨⟨2020, 6, 1, 14, 0⟩, some 1⟩, ⟨⟨2020, 6, 2, 14, 0⟩, some 3⟩]).lookup 14 =
      some (some 2) := by
  have h2 := (hourly_profile_group_means
    [⟨⟨2020, 6, 1, 14, 0⟩, some 1⟩, ⟨⟨2020, 6, 2, 14, 0⟩, some 3⟩] 14).2
    (by decide) (by decide)
  rw [h2]
  norm_num [List.filter_cons, hourOf]
